import Mathlib

/-!
Verification of the custody-backed transaction orchestration engine of the
midnight glacier-drop SDK: the SDK resource pool (SdkManager), the
Fireblocks signing poll loop (getTxStatus and broadcastTransaction), the
redemption-window computation (ThawsService), Cardano coin selection and
output construction (fetchAndSelectUtxos, validateSufficientBalance,
createTransactionOutputs), and the scavenger-hunt proof-of-work loop
(matchesDifficulty, solveChallenge).

Each definition is a shallow embedding of the corresponding TypeScript
function. Timestamps and chain amounts are natural numbers (JavaScript
Date milliseconds and BigInt values); where the source relies on
JavaScript 32-bit bitwise semantics or BigInt truthiness, those semantics
are made explicit.
-/

/-- One entry of the SdkManager pool (SdkPoolItem): the SDK handle stood
in for by a number, the last-used timestamp in milliseconds, and the
in-use flag. -/
structure SdkPoolItem where
  sdk : Nat
  lastUsed : Nat
  isInUse : Bool
deriving DecidableEq

/-- The SdkManager pool map, modelled as an association list in insertion
order (JavaScript Map iteration order), keyed by the vaultAccountId:chain
string. -/
abbrev SdkPool := List (String × SdkPoolItem)

/-- Map.get on the pool. -/
def poolLookup : SdkPool → String → Option SdkPoolItem
  | [], _ => none
  | (k, v) :: rest, key => if k = key then some v else poolLookup rest key

/-- In-place mutation of the entry at a key (a JavaScript Map holds the
object by reference, so mutating it keeps its position). -/
def poolUpdate : SdkPool → String → SdkPoolItem → SdkPool
  | [], _, _ => []
  | (k, v) :: rest, key, item =>
    if k = key then (k, item) :: rest else (k, v) :: poolUpdate rest key item

/-- Map.delete of the entry at a key. -/
def poolErase : SdkPool → String → SdkPool
  | [], _ => []
  | (k, v) :: rest, key =>
    if k = key then rest else (k, v) :: poolErase rest key

/-- The scan inside SdkManager.removeOldestIdleSdk: walks the entries in
iteration order, keeping the key and date of the oldest entry found so
far that is not in use and is strictly older than the running date. The
running date is initialised to the current time by the caller. -/
def findOldestIdleAux : SdkPool → Option String → Nat → Option String × Nat
  | [], oldestKey, oldestDate => (oldestKey, oldestDate)
  | (k, v) :: rest, oldestKey, oldestDate =>
    if v.isInUse = false ∧ v.lastUsed < oldestDate then
      findOldestIdleAux rest (some k) v.lastUsed
    else
      findOldestIdleAux rest oldestKey oldestDate

/-- SdkManager.removeOldestIdleSdk: deletes the oldest idle entry and
reports the updated pool, or none when no idle entry strictly older than
now was found (getSdk then throws the capacity error). -/
def removeOldestIdleSdk (pool : SdkPool) (now : Nat) : Option SdkPool :=
  match (findOldestIdleAux pool none now).1 with
  | some oldestKey => some (poolErase pool oldestKey)
  | none => none

/-- Result of SdkManager.getSdk: the returned handle together with the
updated pool, or the capacity error thrown when the pool is full with no
idle entry to evict. -/
inductive GetSdkResult where
  | ok (sdk : Nat) (pool : SdkPool)
  | capacityError
deriving DecidableEq

/-- SdkManager.getSdk. The argument now is the clock reading (new Date())
and newSdk is the handle a successful createSdkInstance would return. The
source first returns an existing idle entry (marking it in use), then for
an absent key checks the capacity bound (evicting the oldest idle entry),
then either creates a new entry or falls through to the existing entry,
marking it in use and returning its handle. Both branches of the first
test behave identically because the source marks and returns the existing
entry in its final else branch even when the entry is already in use. -/
def getSdk (pool : SdkPool) (maxPoolSize now newSdk : Nat) (key : String) : GetSdkResult :=
  match poolLookup pool key with
  | some poolItem =>
    if poolItem.isInUse = false then
      GetSdkResult.ok poolItem.sdk
        (poolUpdate pool key { poolItem with lastUsed := now, isInUse := true })
    else
      GetSdkResult.ok poolItem.sdk
        (poolUpdate pool key { poolItem with lastUsed := now, isInUse := true })
  | none =>
    if maxPoolSize ≤ pool.length then
      match removeOldestIdleSdk pool now with
      | some pool1 =>
        GetSdkResult.ok newSdk
          (pool1 ++ [(key, { sdk := newSdk, lastUsed := now, isInUse := true })])
      | none => GetSdkResult.capacityError
    else
      GetSdkResult.ok newSdk
        (pool ++ [(key, { sdk := newSdk, lastUsed := now, isInUse := true })])

/-- The metrics snapshot built by SdkManager.getMetrics. -/
structure SdkManagerMetrics where
  totalInstances : Nat
  activeInstances : Nat
  idleInstances : Nat
  instancesByVaultAccount : List (String × Bool)
deriving DecidableEq

/-- The iteration of SdkManager.getMetrics over the pool entries. -/
def getMetricsLoop : SdkPool → SdkManagerMetrics → SdkManagerMetrics
  | [], m => m
  | (k, v) :: rest, m =>
    getMetricsLoop rest
      { m with
        activeInstances := if v.isInUse then m.activeInstances + 1 else m.activeInstances
        idleInstances := if v.isInUse then m.idleInstances else m.idleInstances + 1
        instancesByVaultAccount := m.instancesByVaultAccount ++ [(k, v.isInUse)] }

/-- SdkManager.getMetrics: totalInstances is the map size; the loop counts
active and idle entries and records each key with its in-use flag. -/
def getMetrics (pool : SdkPool) : SdkManagerMetrics :=
  getMetricsLoop pool
    { totalInstances := pool.length
      activeInstances := 0
      idleInstances := 0
      instancesByVaultAccount := [] }

/-- Fireblocks transaction states, as enumerated by the source handling in
getTxStatus (TransactionStateEnum). -/
inductive TransactionState where
  | completed
  | broadcasting
  | blocked
  | cancelled
  | failed
  | rejected
  | submitted
  | queued
  | pendingSignature
  | pendingAuthorization
  | pendingThirdPartyManualApproval
  | pendingThirdParty
deriving DecidableEq, Fintype

/-- A signed-message record of a transaction response; signature models
the SignedMessageSignature object (none when absent, matching the
JavaScript falsy check on signedMessages[0].signature). -/
structure SignedMessage where
  signature : Option String
  content : Option String
  publicKey : Option String
  algorithm : Option String
deriving DecidableEq

/-- One getTransaction response: status, sub-status and signed messages. -/
structure TxResponse where
  status : TransactionState
  subStatus : String
  signedMessages : List SignedMessage
deriving DecidableEq

/-- The while-loop exit condition of getTxStatus: the status is Completed
or Broadcasting. -/
def isSuccessState : TransactionState → Bool
  | TransactionState.completed => true
  | TransactionState.broadcasting => true
  | _ => false

/-- The switch cases of getTxStatus that throw: Blocked, Cancelled,
Failed, Rejected. -/
def isFailureState : TransactionState → Bool
  | TransactionState.blocked => true
  | TransactionState.cancelled => true
  | TransactionState.failed => true
  | TransactionState.rejected => true
  | _ => false

/-- Outcome of the getTxStatus polling loop over a finite trace of
getTransaction responses; calls counts the getTransaction invocations
made. The stillPolling outcome means the loop consumed the whole modelled
trace without reaching a terminal state and would keep polling. -/
inductive PollOutcome where
  | success (response : TxResponse) (calls : Nat)
  | failure (status : TransactionState) (subStatus : String) (calls : Nat)
  | stillPolling (calls : Nat)
deriving DecidableEq

/-- The while loop of getTxStatus: cur is the most recent response, the
list holds the remaining poll responses, calls the count so far. The loop
first tests the exit condition on the current status; otherwise it polls
once more and throws if the newly polled status is a failure state. -/
def pollLoop : TxResponse → List TxResponse → Nat → PollOutcome
  | cur, [], calls =>
    if isSuccessState cur.status then PollOutcome.success cur calls
    else PollOutcome.stillPolling calls
  | cur, next :: rest, calls =>
    if isSuccessState cur.status then PollOutcome.success cur calls
    else if isFailureState next.status then
      PollOutcome.failure next.status next.subStatus (calls + 1)
    else pollLoop next rest (calls + 1)

/-- getTxStatus over a response trace whose head is the initial
getTransaction result (one call) and whose tail holds the successive
poll results. -/
def getTxStatus (trace : List TxResponse) : PollOutcome :=
  match trace with
  | [] => PollOutcome.stillPolling 0
  | first :: rest => pollLoop first rest 1

/-- The non-null return value of FireblocksService.broadcastTransaction. -/
structure SignedResult where
  signature : String
  content : Option String
  publicKey : Option String
  algorithm : Option String
deriving DecidableEq

/-- Observable outcome of broadcastTransaction: a returned value (null or
a signature record), a propagated getTxStatus failure, or a poll still in
progress at the end of the modelled trace. -/
inductive BroadcastOutcome where
  | returned (value : Option SignedResult)
  | thrown (status : TransactionState) (subStatus : String)
  | stillPolling
deriving DecidableEq

/-- FireblocksService.broadcastTransaction after transaction creation:
waits for getTxStatus, then reads signedMessages[0]; when there is no
signed message, or its signature field is absent, it logs a warning and
returns null. -/
def broadcastTransaction (trace : List TxResponse) : BroadcastOutcome :=
  match getTxStatus trace with
  | PollOutcome.success r _ =>
    match r.signedMessages with
    | [] => BroadcastOutcome.returned none
    | sm :: _ =>
      match sm.signature with
      | some sig =>
        BroadcastOutcome.returned
          (some { signature := sig, content := sm.content,
                  publicKey := sm.publicKey, algorithm := sm.algorithm })
      | none => BroadcastOutcome.returned none
  | PollOutcome.failure s sub _ => BroadcastOutcome.thrown s sub
  | PollOutcome.stillPolling _ => BroadcastOutcome.stillPolling

/-- The null and field check FireblocksMidnightSDK.signTransferTransaction
performs on the broadcastTransaction return value before building the
witness set. -/
def signTransferWitnessCheck : Option SignedResult → Except String (String × String)
  | none => Except.error "Missing publicKey or signature from Fireblocks"
  | some fb =>
    match fb.publicKey with
    | none => Except.error "Missing publicKey or signature from Fireblocks"
    | some pubKey => Except.ok (pubKey, fb.signature)

/-- Phase configuration returned by the redemption-phase API. -/
structure PhaseConfigResponse where
  genesis_timestamp : Nat
  jitter_strata_count : Nat
  redemption_increment_period : Nat
  redemption_increments : Nat
  redemption_initial_delay : Nat
deriving DecidableEq

/-- ThawsService.isRedemptionWindowOpen, with the Date.now() / 1000
reading passed explicitly as now (in seconds). The source accepts
now >= startTime and now <= endTime. -/
def isRedemptionWindowOpen (config : PhaseConfigResponse) (now : Nat) : Bool :=
  let startTime := config.genesis_timestamp
  let totalDuration := config.redemption_increment_period * config.redemption_increments
  let endTime := startTime + totalDuration
  decide (startTime ≤ now ∧ now ≤ endTime)

/-- The record built by ThawsService.getRedemptionWindowTimes; the two
Date values are kept as their millisecond timestamps. -/
structure RedemptionWindowTimes where
  startTimeMs : Nat
  endTimeMs : Nat
  isOpen : Bool
  totalDurationSeconds : Nat
deriving DecidableEq

/-- ThawsService.getRedemptionWindowTimes with the clock reading passed
explicitly as now (in seconds). -/
def getRedemptionWindowTimes (config : PhaseConfigResponse) (now : Nat) : RedemptionWindowTimes :=
  let startTime := config.genesis_timestamp
  let totalDuration := config.redemption_increment_period * config.redemption_increments
  let endTime := startTime + totalDuration
  { startTimeMs := startTime * 1000
    endTimeMs := endTime * 1000
    isOpen := decide (startTime ≤ now ∧ now ≤ endTime)
    totalDurationSeconds := totalDuration }

/-- One asset entry of a Blockfrost UTXO amount list: the asset unit and
its quantity; the decimal quantity string of the wire format is modelled
by the natural number it denotes. -/
structure AssetAmount where
  unit : String
  quantity : Nat
deriving DecidableEq

/-- A Blockfrost UTXO. -/
structure Utxo where
  tx_hash : String
  output_index : Nat
  address : String
  amount : List AssetAmount
deriving DecidableEq

/-- Lower-case hex digit character for a value below 16. -/
def hexDigitChar (n : Nat) : Char :=
  if n < 10 then Char.ofNat (48 + n) else Char.ofNat (87 + n)

/-- Two lower-case hex digits of a byte value. -/
def byteHex (n : Nat) : String :=
  String.mk [hexDigitChar (n / 16), hexDigitChar (n % 16)]

/-- Buffer.from(s, utf8).toString(hex) for the ASCII token names the
source uses (each character is a single byte). -/
def asciiToHex (s : String) : String :=
  String.join (s.toList.map (fun c => byteHex c.toNat))

/-- calculateTokenAmount: the quantity of lovelace (policyId empty and
tokenName ADA) or of the native token whose unit is the policy id
followed by the hex-encoded token name; 0 when the asset is absent. -/
def calculateTokenAmount (utxo : Utxo) (policyId tokenName : String) : Nat :=
  if tokenName = "ADA" ∧ policyId = "" then
    match utxo.amount.find? (fun a => a.unit == "lovelace") with
    | some a => a.quantity
    | none => 0
  else
    match utxo.amount.find? (fun a => a.unit == policyId ++ asciiToHex tokenName) with
    | some a => a.quantity
    | none => 0

/-- getLovelaceAmount: the lovelace entry of a UTXO, 0 when absent. -/
def getLovelaceAmount (utxo : Utxo) : Nat :=
  match utxo.amount.find? (fun a => a.unit == "lovelace") with
  | some a => a.quantity
  | none => 0

/-- Modelled from the spec: the nightTokenName constant is defined in
constants.js, which is not among the sources here; the spec names the
reward token NIGHT. Only its role as one fixed token name matters to the
claims. -/
def nightTokenName : String := "NIGHT"

/-- filterUtxos: keeps the UTXOs holding a positive amount of the night
token under the given policy id, and throws when none do. -/
def filterUtxos (utxos : List Utxo) (tokenPolicyId : String) : Except String (List Utxo) :=
  let filtered := utxos.filter (fun u => decide (0 < calculateTokenAmount u tokenPolicyId nightTokenName))
  if filtered.length = 0 then
    Except.error "No UTXOs found containing the night token with the given policy ID."
  else
    Except.ok filtered

/-- Stable insertion used to model Array.prototype.sort with a descending
numeric comparator: an element moves left past exactly the elements with
a strictly smaller key. -/
def insertDescBy {α : Type} (f : α → Nat) (x : α) : List α → List α
  | [] => [x]
  | y :: ys => if f y ≤ f x then x :: y :: ys else y :: insertDescBy f x ys

/-- Stable descending sort by a numeric key. -/
def sortDescBy {α : Type} (f : α → Nat) : List α → List α
  | [] => []
  | x :: xs => insertDescBy f x (sortDescBy f xs)

/-- Phase one of fetchAndSelectUtxos: accumulate token UTXOs, in sorted
order, each entry carrying its token and lovelace amounts, breaking as
soon as the token requirement and the recipient-plus-fee lovelace floor
are both met. -/
def accumulateTokenUtxos (requiredTokenAmount breakAdaMin : Nat) :
    List (Utxo × Nat × Nat) → List Utxo → Nat → Nat → List Utxo × Nat × Nat
  | [], selected, tok, ada => (selected, tok, ada)
  | (u, tAmt, aAmt) :: rest, selected, tok, ada =>
    let selected1 := selected ++ [u]
    let tok1 := tok + tAmt
    let ada1 := ada + aAmt
    if requiredTokenAmount ≤ tok1 ∧ breakAdaMin ≤ ada1 then (selected1, tok1, ada1)
    else accumulateTokenUtxos requiredTokenAmount breakAdaMin rest selected1 tok1 ada1

/-- Phase two of fetchAndSelectUtxos: accumulate further UTXOs by
lovelace amount until the full lovelace target is met or the list is
exhausted. -/
def accumulateAdaUtxos (adaTarget : Nat) :
    List (Utxo × Nat) → List Utxo → Nat → List Utxo × Nat
  | [], selected, ada => (selected, ada)
  | (u, aAmt) :: rest, selected, ada =>
    let selected1 := selected ++ [u]
    let ada1 := ada + aAmt
    if adaTarget ≤ ada1 then (selected1, ada1)
    else accumulateAdaUtxos adaTarget rest selected1 ada1

/-- The selection record returned by fetchAndSelectUtxos. -/
structure CoinSelection where
  selectedUtxos : List Utxo
  accumulatedAda : Nat
  accumulatedTokenAmount : Nat
deriving DecidableEq

/-- The pure core of fetchAndSelectUtxos, taking the fetched UTXO list as
input (the network fetch and the BlockFrost client are outside the
model). Phase one walks the token UTXOs sorted by token amount
descending; when the accumulated lovelace is below the full target
including the change minimum, phase two adds the remaining UTXOs sorted
by lovelace descending. Note that after phase two the function returns
whatever was accumulated without any shortfall check. -/
def fetchAndSelectUtxos (utxos : List Utxo) (tokenPolicyId : String)
    (requiredTokenAmount transactionFee minRecipientLovelace minChangeLovelace : Nat) :
    Except String CoinSelection :=
  match filterUtxos utxos tokenPolicyId with
  | Except.error e => Except.error e
  | Except.ok filtered =>
    let withAmounts := filtered.map
      (fun u => (u, calculateTokenAmount u tokenPolicyId nightTokenName, getLovelaceAmount u))
    let sorted := sortDescBy (fun t => t.2.1) withAmounts
    let phase1 := accumulateTokenUtxos requiredTokenAmount (minRecipientLovelace + transactionFee) sorted [] 0 0
    let adaTarget := minRecipientLovelace + transactionFee + minChangeLovelace
    if phase1.2.2 < adaTarget then
      let remaining := utxos.filter (fun u => !(phase1.1.contains u))
      let adaUtxos := sortDescBy (fun t => t.2) (remaining.map (fun u => (u, getLovelaceAmount u)))
      let phase2 := accumulateAdaUtxos adaTarget adaUtxos phase1.1 phase1.2.2
      Except.ok { selectedUtxos := phase2.1, accumulatedAda := phase2.2,
                  accumulatedTokenAmount := phase1.2.1 }
    else
      Except.ok { selectedUtxos := phase1.1, accumulatedAda := phase1.2.2,
                  accumulatedTokenAmount := phase1.2.1 }

/-- The details object of the INSUFFICIENT_BALANCE error thrown by
FireblocksMidnightSDK.validateSufficientBalance. -/
structure InsufficientBalanceDetails where
  requiredTokenAmount : Nat
  accumulatedTokenAmount : Nat
  requiredAda : Nat
  accumulatedAda : Nat
deriving DecidableEq

/-- The errors the transfer pipeline can raise before building outputs. -/
inductive TransferError where
  | selection (msg : String)
  | insufficientBalance (details : InsufficientBalanceDetails)
deriving DecidableEq

/-- FireblocksMidnightSDK.validateSufficientBalance: throws when the
accumulated token amount is below the requirement or the accumulated
lovelace is below the recipient minimum plus the fee. The change minimum
is not part of its target. -/
def validateSufficientBalance
    (accumulatedAda accumulatedTokenAmount requiredTokenAmount minRecipientLovelace transactionFee : Nat) :
    Option InsufficientBalanceDetails :=
  let adaTarget := minRecipientLovelace + transactionFee
  if accumulatedTokenAmount < requiredTokenAmount ∨ accumulatedAda < adaTarget then
    some { requiredTokenAmount := requiredTokenAmount
           accumulatedTokenAmount := accumulatedTokenAmount
           requiredAda := adaTarget
           accumulatedAda := accumulatedAda }
  else
    none

/-- FireblocksMidnightSDK.fetchAndValidateUtxos: selection followed by the
balance validation; an ok result is the selection the transfer proceeds
with. -/
def fetchAndValidateUtxos (utxos : List Utxo) (tokenPolicyId : String)
    (requiredTokenAmount transactionFee minRecipientLovelace minChangeLovelace : Nat) :
    Except TransferError CoinSelection :=
  match fetchAndSelectUtxos utxos tokenPolicyId requiredTokenAmount transactionFee
      minRecipientLovelace minChangeLovelace with
  | Except.error e => Except.error (TransferError.selection e)
  | Except.ok r =>
    match validateSufficientBalance r.accumulatedAda r.accumulatedTokenAmount
        requiredTokenAmount minRecipientLovelace transactionFee with
    | some d => Except.error (TransferError.insufficientBalance d)
    | none => Except.ok r

/-- A transaction output as built by createTransactionOutputs: the assets
record holds a lovelace entry and, when present, the single token-unit
entry. Lovelace is an integer because the BigInt subtraction in the
source can go negative. -/
structure TxOutput where
  address : String
  lovelace : Int
  tokenAmount : Option Int
deriving DecidableEq

/-- The asset summation of createTransactionOutputs over one UTXO amount
list: lovelace entries add to the first component, entries of the token
unit to the second, everything else is ignored. -/
def sumAssetsList (tokenUnit : String) : List AssetAmount → Int × Int → Int × Int
  | [], acc => acc
  | a :: rest, (tl, tt) =>
    if a.unit == "lovelace" then sumAssetsList tokenUnit rest (tl + (a.quantity : Int), tt)
    else if a.unit == tokenUnit then sumAssetsList tokenUnit rest (tl, tt + (a.quantity : Int))
    else sumAssetsList tokenUnit rest (tl, tt)

/-- The outer summation of createTransactionOutputs over the selected
UTXOs. -/
def sumAssets (tokenUnit : String) : List Utxo → Int × Int → Int × Int
  | [], acc => acc
  | u :: rest, acc => sumAssets tokenUnit rest (sumAssetsList tokenUnit u.amount acc)

/-- createTransactionOutputs: sums lovelace and token over the selected
UTXOs, throws when the token total is below the transfer amount, and
builds the recipient output (minimum lovelace plus the transferred
tokens) and the change output (remaining lovelace, plus the remaining
tokens only when positive). -/
def createTransactionOutputs (requiredLovelace fee : Nat)
    (recipientAddress senderAddress tokenPolicyId tokenName : String)
    (transferAmount : Nat) (selectedUtxos : List Utxo) :
    Except String (List TxOutput) :=
  let tokenUnit := tokenPolicyId ++ asciiToHex tokenName
  let totals := sumAssets tokenUnit selectedUtxos (0, 0)
  if totals.2 < (transferAmount : Int) then
    Except.error "Insufficient tokens for the requested transfer amount"
  else
    let changeLovelace := totals.1 - (requiredLovelace : Int) - (fee : Int)
    let changeTokenAmount := totals.2 - (transferAmount : Int)
    Except.ok
      [ { address := recipientAddress, lovelace := (requiredLovelace : Int),
          tokenAmount := some (transferAmount : Int) },
        { address := senderAddress, lovelace := changeLovelace,
          tokenAmount := if 0 < changeTokenAmount then some changeTokenAmount else none } ]

/-- A hex string modelled as its sequence of hex-digit values. -/
abbrev HexString := List (Fin 16)

/-- parseInt of the first eight hex digits, the substring(0, 8) read of
matchesDifficulty. -/
def parseHex8 (s : HexString) : Nat :=
  (s.take 8).foldl (fun acc d => acc * 16 + d.val) 0

/-- JavaScript ToInt32: reduce modulo 2 to the 32 into the signed range. -/
def toInt32 (n : Nat) : Int :=
  if n % 4294967296 < 2147483648 then ((n % 4294967296 : Nat) : Int)
  else ((n % 4294967296 : Nat) : Int) - 4294967296

/-- ScavengerHuntService.matchesDifficulty: the first four bytes of hash
and difficulty are parsed as numbers; the bitwise or is a JavaScript
32-bit signed operation and its result is compared with strict equality
against the parsed difficulty number. -/
def matchesDifficulty (hash difficulty : HexString) : Bool :=
  let hashBits := parseHex8 hash
  let diffBits := parseHex8 difficulty
  toInt32 (Nat.lor hashBits diffBits) == (diffBits : Int)

/-- Outcome of the bounded unrolling of the solveChallenge mining loop:
a found nonce, the max-attempts error, or still running after the given
number of iterations. -/
inductive SolveOutcome where
  | found (nonce : Nat)
  | maxAttemptsError (maxAttempts : Nat)
  | running
deriving DecidableEq

/-- The test maxAttempts and nonce >= maxAttempts at the top of the
mining loop: a BigInt 0n is falsy in JavaScript, so a zero cap disables
the check entirely. -/
def maxAttemptsReached : Option Nat → Nat → Bool
  | none, _ => false
  | some m, nonce => if m = 0 then false else decide (m ≤ nonce)

/-- The while loop of ScavengerHuntService.solveChallenge; hashOf gives
the AshMaize hash, as hex digits, of the preimage built from each nonce;
fuel bounds how many iterations are unrolled, running meaning the source
loop is still going after that many iterations. -/
def solveLoop (hashOf : Nat → HexString) (difficulty : HexString) (maxAttempts : Option Nat) :
    Nat → Nat → SolveOutcome
  | _, 0 => SolveOutcome.running
  | nonce, fuel + 1 =>
    if maxAttemptsReached maxAttempts nonce then
      SolveOutcome.maxAttemptsError (maxAttempts.getD 0)
    else if matchesDifficulty (hashOf nonce) difficulty then SolveOutcome.found nonce
    else solveLoop hashOf difficulty maxAttempts (nonce + 1) fuel

/-- solveChallenge starts the mining loop at nonce 0. -/
def solveChallenge (hashOf : Nat → HexString) (difficulty : HexString)
    (maxAttempts : Option Nat) (fuel : Nat) : SolveOutcome :=
  solveLoop hashOf difficulty maxAttempts 0 fuel

/-- A pool holding a single entry that is currently in use. -/
def c1Pool : SdkPool :=
  [("123:CARDANO", { sdk := 7, lastUsed := 5, isInUse := true })]

/-- A UTXO holding 1.4 million lovelace and 1000 night tokens under
policy id pol (the unit is pol followed by the hex of NIGHT). -/
def c2Utxo : Utxo :=
  { tx_hash := "tx0", output_index := 0, address := "addr0",
    amount := [ { unit := "lovelace", quantity := 1400000 },
                { unit := "pol4e49474854", quantity := 1000 } ] }

/-- A trace whose initial response is already Completed but carries no
signed message. -/
def c3Trace : List TxResponse :=
  [{ status := TransactionState.completed, subStatus := "", signedMessages := [] }]

/-- A trace whose initial response is already the terminal failure state
Failed, and whose first poll reports Failed again. -/
def c4Trace : List TxResponse :=
  [ { status := TransactionState.failed, subStatus := "sub", signedMessages := [] },
    { status := TransactionState.failed, subStatus := "sub", signedMessages := [] } ]

/-- The phase configuration of the redemption-window test case: genesis
timestamp 1000, increment period 600, increment count 10. -/
def c5Config : PhaseConfigResponse :=
  { genesis_timestamp := 1000, jitter_strata_count := 0,
    redemption_increment_period := 600, redemption_increments := 10,
    redemption_initial_delay := 0 }

/-- A UTXO holding 2 million lovelace and 5000 night tokens under policy
id p. -/
def c6Utxo : Utxo :=
  { tx_hash := "tx1", output_index := 1, address := "addr1",
    amount := [ { unit := "lovelace", quantity := 2000000 },
                { unit := "p4e49474854", quantity := 5000 } ] }

/-- The hex digits of 00123456, the hash the specification claims the
difficulty 00ff0000 accepts. -/
def c7Hash : HexString := [0, 0, 1, 2, 3, 4, 5, 6]

/-- The hex digits of ff123456. -/
def c7HashBad : HexString := [15, 15, 1, 2, 3, 4, 5, 6]

/-- The hex digits of 00ab0000, a hash with zero bits everywhere the
difficulty 00ff0000 has them. -/
def c7HashGood : HexString := [0, 0, 10, 11, 0, 0, 0, 0]

/-- The hex digits of the difficulty 00ff0000. -/
def c7Difficulty : HexString := [0, 0, 15, 15, 0, 0, 0, 0]

/-- A full pool with two idle entries, the one with key b:CARDANO being
the oldest, and one in-use entry. -/
def c8Pool : SdkPool :=
  [ ("a:CARDANO", { sdk := 1, lastUsed := 5, isInUse := false }),
    ("b:CARDANO", { sdk := 2, lastUsed := 3, isInUse := false }),
    ("c:CARDANO", { sdk := 3, lastUsed := 4, isInUse := true }) ]

/-- A one-entry pool whose single entry is idle but stamped at the very
millisecond of the next acquire: released and re-requested in the same
clock tick. -/
def c8BoundaryPool : SdkPool :=
  [("a:CARDANO", { sdk := 1, lastUsed := 10, isInUse := false })]

/-- A hash function whose hashes never satisfy any difficulty with a
zero bit in its first 32 bits: every nonce hashes to ffffffff. -/
def c9HashConst : Nat → HexString := fun _ => [15, 15, 15, 15, 15, 15, 15, 15]

/-- The all-zero difficulty: no leading hash bit may be set. -/
def c9Difficulty : HexString := [0, 0, 0, 0, 0, 0, 0, 0]

/-- Claim C1 (code bug): the pool entry for key 123:CARDANO is marked in
use, yet a second getSdk for the same key returns that same handle 7 as
available, merely refreshing lastUsed, instead of rejecting the acquire.
The first conjunct records that the entry is in use at the time of the
call; the second evaluates getSdk at that state. -/
theorem getSdk_inuse_reacquire_returns_same_handle :
    poolLookup c1Pool "123:CARDANO" = some { sdk := 7, lastUsed := 5, isInUse := true } ∧
    getSdk c1Pool 100 10 99 "123:CARDANO" =
      GetSdkResult.ok 7 [("123:CARDANO", { sdk := 7, lastUsed := 10, isInUse := true })] :=
  ⟨rfl, rfl⟩

/-- Claim C2 (code bug): with a single UTXO of 1.4 million lovelace and
1000 night tokens, a transfer of 1000 tokens with fee 200000, recipient
minimum 1200000 and change minimum 1200000 passes selection and balance
validation even though the accumulated lovelace 1400000 is short of
recipient minimum plus fee plus change minimum, 2600000: the pipeline
returns a silently under-funded selection instead of an explicit
insufficient-balance error. -/
theorem fetchAndValidate_silently_underfunded_change :
    fetchAndValidateUtxos [c2Utxo] "pol" 1000 200000 1200000 1200000 =
      Except.ok { selectedUtxos := [c2Utxo], accumulatedAda := 1400000,
                  accumulatedTokenAmount := 1000 } ∧
    1400000 < 1200000 + 200000 + 1200000 :=
  ⟨rfl, by decide⟩

/-- Claim C3 counterexample: a transaction that reaches the terminal
success state Completed with no signed-message record makes
broadcastTransaction return null, not a distinct signature-missing
error. -/
theorem broadcastTransaction_missing_signature_returns_null :
    broadcastTransaction c3Trace = BroadcastOutcome.returned none :=
  rfl

/-- Claim C4 counterexample: when the initial status fetch already
reports the terminal failure state Failed, the loop still issues a
second getTransaction poll before throwing: the outcome records two
calls, so the loop polled past an observed terminal state. -/
theorem getTxStatus_polls_past_initial_failure :
    getTxStatus c4Trace = PollOutcome.failure TransactionState.failed "sub" 2 :=
  rfl

/-- Claim C5 counterexample: with genesis timestamp 1000, increment
period 600 and increment count 10, the window ends at 7000, and the code
reports the window open at now equal to that end time, where the claimed
half-open interval would be closed. -/
theorem isRedemptionWindowOpen_true_at_end_time :
    isRedemptionWindowOpen c5Config 7000 = true ∧
    (getRedemptionWindowTimes c5Config 7000).isOpen = true :=
  ⟨rfl, rfl⟩

/-- Claim C7 counterexample: the difficulty 00ff0000 rejects the hash
00123456, which the specification claims it accepts: the bitwise or of
0x00123456 and 0x00ff0000 is 0x00ff3456, not 0x00ff0000. -/
theorem matchesDifficulty_rejects_spec_concrete_case :
    matchesDifficulty c7Hash c7Difficulty = false := by decide

/-- Claim C9 counterexample: a supplied maxAttempts of 0n is falsy in
JavaScript, so the cap check is disabled: with a hash function that never
matches, the loop is still running after 100 iterations instead of
failing with the max-attempts error, and it never will fail (see
solveLoop_zero_cap_diverges). -/
theorem solveChallenge_zero_maxAttempts_never_errors :
    solveChallenge c9HashConst c9Difficulty (some 0) 100 = SolveOutcome.running := by
  decide

/-- With a zero cap and a hash function that never matches the
difficulty, the mining loop runs forever: every finite unrolling is
still running. -/
theorem solveLoop_zero_cap_diverges (hashOf : Nat → HexString) (difficulty : HexString)
    (hnomatch : ∀ n, matchesDifficulty (hashOf n) difficulty = false) :
    ∀ fuel nonce, solveLoop hashOf difficulty (some 0) nonce fuel = SolveOutcome.running := by
  intro fuel
  induction fuel with
  | zero => intro nonce; rfl
  | succ fuel ih =>
    intro nonce
    simp only [solveLoop, maxAttemptsReached, if_pos rfl, hnomatch nonce]
    simpa using ih (nonce + 1)

/-- The getMetrics loop adds the in-use and idle counts of the remaining
entries to the accumulator, appends one key and flag pair per entry, and
never touches totalInstances. -/
theorem getMetricsLoop_spec (pool : SdkPool) :
    ∀ m : SdkManagerMetrics,
      (getMetricsLoop pool m).totalInstances = m.totalInstances ∧
      (getMetricsLoop pool m).activeInstances =
        m.activeInstances + pool.countP (fun e => e.2.isInUse) ∧
      (getMetricsLoop pool m).idleInstances =
        m.idleInstances + pool.countP (fun e => !e.2.isInUse) ∧
      (getMetricsLoop pool m).instancesByVaultAccount =
        m.instancesByVaultAccount ++ pool.map (fun e => (e.1, e.2.isInUse)) := by
  induction pool with
  | nil => intro m; simp [getMetricsLoop]
  | cons hd tl ih =>
    intro m
    obtain ⟨k, v⟩ := hd
    obtain ⟨h1, h2, h3, h4⟩ := ih
      { m with
        activeInstances := if v.isInUse then m.activeInstances + 1 else m.activeInstances
        idleInstances := if v.isInUse then m.idleInstances else m.idleInstances + 1
        instancesByVaultAccount := m.instancesByVaultAccount ++ [(k, v.isInUse)] }
    refine ⟨?_, ?_, ?_, ?_⟩
    · simpa [getMetricsLoop] using h1
    · rw [getMetricsLoop, h2]
      simp only [List.countP_cons]
      cases v.isInUse <;> (simp; try omega)
    · rw [getMetricsLoop, h3]
      simp only [List.countP_cons]
      cases v.isInUse <;> (simp; try omega)
    · rw [getMetricsLoop, h4]
      simp

/-- Every pool entry is counted exactly once, either as in use or as
idle. -/
theorem countP_inuse_split (pool : SdkPool) :
    pool.countP (fun e => e.2.isInUse) + pool.countP (fun e => !e.2.isInUse) = pool.length := by
  induction pool with
  | nil => rfl
  | cons hd tl ih =>
    simp only [List.countP_cons, List.length_cons]
    cases hd.2.isInUse <;> simp <;> omega

/-- Claim C10: the getMetrics snapshot satisfies totalInstances equal to
activeInstances plus idleInstances, and instancesByVaultAccount holds
exactly one boolean entry per pool key, namely that entry in-use flag,
in pool order. -/
theorem getMetrics_partition_and_per_key (pool : SdkPool) :
    (getMetrics pool).totalInstances =
      (getMetrics pool).activeInstances + (getMetrics pool).idleInstances ∧
    (getMetrics pool).instancesByVaultAccount = pool.map (fun e => (e.1, e.2.isInUse)) := by
  obtain ⟨h1, h2, h3, h4⟩ := getMetricsLoop_spec pool
    { totalInstances := pool.length
      activeInstances := 0
      idleInstances := 0
      instancesByVaultAccount := [] }
  constructor
  · rw [getMetrics, h1, h2, h3]
    simp [countP_inuse_split pool]
  · rw [getMetrics, h4]
    simp

/-- Claim C5 (amended): with increment period 600 and increment count 10
the derived window runs from the genesis timestamp T to T plus 6000, and
isOpen holds exactly on the closed interval: it is also true when now
equals the end time, unlike the half-open interval the specification
states. -/
theorem redemptionWindow_closed_interval (config : PhaseConfigResponse) (now : Nat)
    (hperiod : config.redemption_increment_period = 600)
    (hcount : config.redemption_increments = 10) :
    (getRedemptionWindowTimes config now).startTimeMs = config.genesis_timestamp * 1000 ∧
    (getRedemptionWindowTimes config now).endTimeMs = (config.genesis_timestamp + 6000) * 1000 ∧
    (getRedemptionWindowTimes config now).totalDurationSeconds = 6000 ∧
    ((getRedemptionWindowTimes config now).isOpen = true ↔
      config.genesis_timestamp ≤ now ∧ now ≤ config.genesis_timestamp + 6000) ∧
    (isRedemptionWindowOpen config now = true ↔
      config.genesis_timestamp ≤ now ∧ now ≤ config.genesis_timestamp + 6000) := by
  simp [getRedemptionWindowTimes, isRedemptionWindowOpen, hperiod, hcount]

/-- A success outcome of the polling loop always carries a response in a
terminal success state. -/
theorem pollLoop_success_sound (rest : List TxResponse) :
    ∀ (cur : TxResponse) (calls : Nat) (r : TxResponse) (c : Nat),
      pollLoop cur rest calls = PollOutcome.success r c → isSuccessState r.status = true := by
  induction rest with
  | nil =>
    intro cur calls r c h
    by_cases hs : isSuccessState cur.status
    · rw [pollLoop, if_pos hs] at h
      cases h
      exact hs
    · rw [pollLoop, if_neg hs] at h
      cases h
  | cons next rest ih =>
    intro cur calls r c h
    by_cases hs : isSuccessState cur.status
    · rw [pollLoop, if_pos hs] at h
      cases h
      exact hs
    · by_cases hf : isFailureState next.status
      · rw [pollLoop, if_neg hs, if_pos hf] at h
        cases h
      · rw [pollLoop, if_neg hs, if_neg hf] at h
        exact ih next (calls + 1) r c h

/-- A failure outcome of the polling loop always carries a terminal
failure status. -/
theorem pollLoop_failure_sound (rest : List TxResponse) :
    ∀ (cur : TxResponse) (calls : Nat) (s : TransactionState) (sub : String) (c : Nat),
      pollLoop cur rest calls = PollOutcome.failure s sub c → isFailureState s = true := by
  induction rest with
  | nil =>
    intro cur calls s sub c h
    by_cases hs : isSuccessState cur.status
    · rw [pollLoop, if_pos hs] at h
      cases h
    · rw [pollLoop, if_neg hs] at h
      cases h
  | cons next rest ih =>
    intro cur calls s sub c h
    by_cases hs : isSuccessState cur.status
    · rw [pollLoop, if_pos hs] at h
      cases h
    · by_cases hf : isFailureState next.status
      · rw [pollLoop, if_neg hs, if_pos hf] at h
        cases h
        exact hf
      · rw [pollLoop, if_neg hs, if_neg hf] at h
        exact ih next (calls + 1) s sub c h

/-- Claim C4 (amended): getTxStatus classifies Completed and Broadcasting
as terminal success, Blocked, Cancelled, Failed and Rejected as terminal
failure with the sub-status surfaced, and every other status as
non-terminal; a success status ends the loop at once with no further
poll from any loop state, and a failure status returned by a poll ends
the loop with exactly that poll; but a terminal-failure status in the
initial fetch does not end the loop before one more poll is issued,
because the loop only inspects failure states on freshly polled
responses. -/
theorem getTxStatus_classification_amended :
    (isSuccessState TransactionState.completed = true ∧
     isSuccessState TransactionState.broadcasting = true ∧
     isFailureState TransactionState.blocked = true ∧
     isFailureState TransactionState.cancelled = true ∧
     isFailureState TransactionState.failed = true ∧
     isFailureState TransactionState.rejected = true ∧
     (∀ s, isSuccessState s = true →
        s = TransactionState.completed ∨ s = TransactionState.broadcasting) ∧
     (∀ s, isFailureState s = true →
        s = TransactionState.blocked ∨ s = TransactionState.cancelled ∨
        s = TransactionState.failed ∨ s = TransactionState.rejected) ∧
     (∀ s, isSuccessState s = true → isFailureState s = false)) ∧
    (∀ (cur : TxResponse) (rest : List TxResponse) (calls : Nat),
       isSuccessState cur.status = true →
       pollLoop cur rest calls = PollOutcome.success cur calls) ∧
    (∀ (cur next : TxResponse) (rest : List TxResponse) (calls : Nat),
       isSuccessState cur.status = false → isFailureState next.status = true →
       pollLoop cur (next :: rest) calls =
         PollOutcome.failure next.status next.subStatus (calls + 1)) ∧
    (∀ (cur next : TxResponse) (rest : List TxResponse) (calls : Nat),
       isSuccessState cur.status = false → isFailureState next.status = false →
       pollLoop cur (next :: rest) calls = pollLoop next rest (calls + 1)) ∧
    (∀ (trace : List TxResponse) (r : TxResponse) (calls : Nat),
       getTxStatus trace = PollOutcome.success r calls → isSuccessState r.status = true) ∧
    (∀ (trace : List TxResponse) (s : TransactionState) (sub : String) (calls : Nat),
       getTxStatus trace = PollOutcome.failure s sub calls → isFailureState s = true) := by
  refine ⟨by decide, ?_, ?_, ?_, ?_, ?_⟩
  · intro cur rest calls hs
    cases rest with
    | nil => rw [pollLoop, if_pos hs]
    | cons next rest => rw [pollLoop, if_pos hs]
  · intro cur next rest calls hs hf
    rw [pollLoop, if_neg (by simp [hs]), if_pos hf]
  · intro cur next rest calls hs hf
    rw [pollLoop, if_neg (by simp [hs]), if_neg (by simp [hf])]
  · intro trace r calls h
    cases trace with
    | nil => cases h
    | cons first rest => exact pollLoop_success_sound rest first 1 r calls h
  · intro trace s sub calls h
    cases trace with
    | nil => cases h
    | cons first rest => exact pollLoop_failure_sound rest first 1 s sub calls h

/-- Witness for the amended C4 theorem: from a non-terminal Queued state,
a Rejected status returned by the first poll stops the loop at exactly
two getTransaction calls. -/
theorem getTxStatus_classification_witness :
    pollLoop { status := TransactionState.queued, subStatus := "s", signedMessages := [] }
        [{ status := TransactionState.rejected, subStatus := "t", signedMessages := [] }] 1 =
      PollOutcome.failure TransactionState.rejected "t" 2 :=
  getTxStatus_classification_amended.2.2.1
    { status := TransactionState.queued, subStatus := "s", signedMessages := [] }
    { status := TransactionState.rejected, subStatus := "t", signedMessages := [] }
    [] 1 rfl rfl

/-- Claim C3 (amended): when getTxStatus reaches a terminal success state
whose response carries no signed-message signature, broadcastTransaction
returns null rather than raising a distinct signature-missing error; the
SDK-level caller signTransferTransaction then converts that null into an
explicit missing-signature error. -/
theorem broadcastTransaction_null_on_missing_signature (trace : List TxResponse)
    (r : TxResponse) (calls : Nat)
    (hsucc : getTxStatus trace = PollOutcome.success r calls)
    (hnosig : r.signedMessages.head?.bind SignedMessage.signature = none) :
    broadcastTransaction trace = BroadcastOutcome.returned none ∧
    signTransferWitnessCheck none =
      Except.error "Missing publicKey or signature from Fireblocks" := by
  refine ⟨?_, rfl⟩
  unfold broadcastTransaction
  simp only [hsucc]
  cases hms : r.signedMessages with
  | nil => rfl
  | cons sm rest =>
    rw [hms] at hnosig
    simp only [List.head?, Option.bind] at hnosig
    simp only [hnosig]

/-- Witness for the amended C3 theorem at the concrete one-response trace
whose Completed response has no signed messages. -/
theorem broadcastTransaction_null_witness :
    broadcastTransaction c3Trace = BroadcastOutcome.returned none ∧
    signTransferWitnessCheck none =
      Except.error "Missing publicKey or signature from Fireblocks" :=
  broadcastTransaction_null_on_missing_signature c3Trace
    { status := TransactionState.completed, subStatus := "", signedMessages := [] } 1 rfl rfl

/-- With a nonzero cap and no matching nonce below it, each loop
iteration advances the nonce until the cap check fires. -/
theorem solveLoop_counts_to_cap (hashOf : Nat → HexString) (difficulty : HexString) (m : Nat)
    (hm : 0 < m) (hnomatch : ∀ n, n < m → matchesDifficulty (hashOf n) difficulty = false) :
    ∀ fuel nonce, nonce ≤ m → m - nonce < fuel →
      solveLoop hashOf difficulty (some m) nonce fuel = SolveOutcome.maxAttemptsError m := by
  intro fuel
  induction fuel with
  | zero => intro nonce _ hcontra; omega
  | succ fuel ih =>
    intro nonce hle hfuel
    by_cases hcap : m ≤ nonce
    · have hreach : maxAttemptsReached (some m) nonce = true := by
        simp only [maxAttemptsReached]
        rw [if_neg (Nat.pos_iff_ne_zero.mp hm)]
        simpa using hcap
      rw [solveLoop, if_pos hreach]
      rfl
    · have hlt : nonce < m := lt_of_not_le hcap
      have hreach : maxAttemptsReached (some m) nonce = false := by
        simp only [maxAttemptsReached]
        rw [if_neg (Nat.pos_iff_ne_zero.mp hm)]
        simpa using hcap
      rw [solveLoop, if_neg (by simp [hreach]), if_neg (by simp [hnomatch nonce hlt])]
      exact ih (nonce + 1) (by omega) (by omega)

/-- Claim C9 (amended): for every supplied nonzero maxAttempts, when no
nonce below maxAttempts produces a matching hash, the mining loop
terminates with the explicit max-attempts error after checking exactly
the nonces below the cap; a supplied maxAttempts of 0n, being falsy in
JavaScript, disables the cap instead and the loop can run forever. -/
theorem solveChallenge_maxAttempts_terminates (hashOf : Nat → HexString)
    (difficulty : HexString) (m fuel : Nat) (hm : 0 < m) (hfuel : m < fuel)
    (hnomatch : ∀ n, n < m → matchesDifficulty (hashOf n) difficulty = false) :
    solveChallenge hashOf difficulty (some m) fuel = SolveOutcome.maxAttemptsError m :=
  solveLoop_counts_to_cap hashOf difficulty m hm hnomatch fuel 0 (by omega) (by omega)

/-- Witness for the amended C9 theorem: a never-matching hash function
with cap 3 reaches the max-attempts error within 5 unrolled
iterations. -/
theorem solveChallenge_maxAttempts_witness :
    solveChallenge c9HashConst c9Difficulty (some 3) 5 = SolveOutcome.maxAttemptsError 3 :=
  solveChallenge_maxAttempts_terminates c9HashConst c9Difficulty 3 5 (by decide) (by decide)
    (fun n _ => by
      show matchesDifficulty [15, 15, 15, 15, 15, 15, 15, 15] c9Difficulty = false
      decide)

/-- Claim C6: output construction conserves value. When the summed token
quantity of the selected UTXOs is below the transfer amount the
construction fails; otherwise it returns exactly the recipient and
change outputs, whose token entries add up to the accumulated token
total, with the change token entry omitted exactly when the remainder is
zero, and whose lovelace entries add up to the accumulated lovelace
minus the fee. -/
theorem createTransactionOutputs_conservation
    (requiredLovelace fee : Nat) (recipientAddress senderAddress tokenPolicyId tokenName : String)
    (transferAmount : Nat) (selectedUtxos : List Utxo) :
    ((sumAssets (tokenPolicyId ++ asciiToHex tokenName) selectedUtxos (0, 0)).2 < (transferAmount : Int) →
      createTransactionOutputs requiredLovelace fee recipientAddress senderAddress
          tokenPolicyId tokenName transferAmount selectedUtxos =
        Except.error "Insufficient tokens for the requested transfer amount") ∧
    ((transferAmount : Int) ≤ (sumAssets (tokenPolicyId ++ asciiToHex tokenName) selectedUtxos (0, 0)).2 →
      ∃ recipient change,
        createTransactionOutputs requiredLovelace fee recipientAddress senderAddress
            tokenPolicyId tokenName transferAmount selectedUtxos =
          Except.ok [recipient, change] ∧
        recipient.tokenAmount.getD 0 + change.tokenAmount.getD 0 =
          (sumAssets (tokenPolicyId ++ asciiToHex tokenName) selectedUtxos (0, 0)).2 ∧
        (change.tokenAmount = none ↔
          (sumAssets (tokenPolicyId ++ asciiToHex tokenName) selectedUtxos (0, 0)).2 =
            (transferAmount : Int)) ∧
        recipient.lovelace + change.lovelace =
          (sumAssets (tokenPolicyId ++ asciiToHex tokenName) selectedUtxos (0, 0)).1 - (fee : Int)) := by
  constructor
  · intro hshort
    unfold createTransactionOutputs
    rw [if_pos hshort]
  · intro hok
    unfold createTransactionOutputs
    rw [if_neg (not_lt.mpr hok)]
    refine ⟨_, _, rfl, ?_, ?_, ?_⟩
    · by_cases hc :
        (0 : Int) < (sumAssets (tokenPolicyId ++ asciiToHex tokenName) selectedUtxos (0, 0)).2 -
          (transferAmount : Int)
      · simp only [if_pos hc, Option.getD]
        ring
      · simp only [if_neg hc, Option.getD]
        omega
    · by_cases hc :
        (0 : Int) < (sumAssets (tokenPolicyId ++ asciiToHex tokenName) selectedUtxos (0, 0)).2 -
          (transferAmount : Int)
      · simp only [if_pos hc]
        constructor
        · intro h
          cases h
        · intro h
          omega
      · simp only [if_neg hc]
        constructor
        · intro _
          omega
        · intro _
          trivial
    · ring

/-- Witness for the C6 theorem: one UTXO with 2 million lovelace and
5000 tokens, transferring 1000 tokens with a recipient minimum of 1.2
million lovelace and a fee of 200000. -/
theorem createTransactionOutputs_witness :
    ∃ recipient change,
      createTransactionOutputs 1200000 200000 "r" "s" "p" "NIGHT" 1000 [c6Utxo] =
        Except.ok [recipient, change] ∧
      recipient.tokenAmount.getD 0 + change.tokenAmount.getD 0 =
        (sumAssets ("p" ++ asciiToHex "NIGHT") [c6Utxo] (0, 0)).2 ∧
      (change.tokenAmount = none ↔
        (sumAssets ("p" ++ asciiToHex "NIGHT") [c6Utxo] (0, 0)).2 = ((1000 : Nat) : Int)) ∧
      recipient.lovelace + change.lovelace =
        (sumAssets ("p" ++ asciiToHex "NIGHT") [c6Utxo] (0, 0)).1 - ((200000 : Nat) : Int) :=
  (createTransactionOutputs_conservation 1200000 200000 "r" "s" "p" "NIGHT" 1000 [c6Utxo]).2
    (by decide)

/-- The hex fold grows by at most a factor of sixteen per digit. -/
theorem foldlHex_lt (l : HexString) :
    ∀ acc : Nat, l.foldl (fun a d => a * 16 + d.val) acc < (acc + 1) * 16 ^ l.length := by
  induction l with
  | nil => intro acc; simp
  | cons d rest ih =>
    intro acc
    have h := ih (acc * 16 + d.val)
    have hstep : (acc * 16 + d.val + 1) * 16 ^ rest.length ≤ (acc + 1) * 16 ^ (d :: rest).length := by
      rw [List.length_cons, pow_succ]
      have hd : d.val + 1 ≤ 16 := d.isLt
      calc (acc * 16 + d.val + 1) * 16 ^ rest.length
          ≤ ((acc + 1) * 16) * 16 ^ rest.length := by
            apply Nat.mul_le_mul_right
            omega
        _ = (acc + 1) * (16 ^ rest.length * 16) := by ring
    exact lt_of_lt_of_le h hstep

/-- The parsed eight-digit value is below 2 to the 32. -/
theorem parseHex8_lt (s : HexString) : parseHex8 s < 4294967296 := by
  have h := foldlHex_lt (s.take 8) 0
  have hlen : (s.take 8).length ≤ 8 := by
    simp [List.length_take]
  have hpow : 16 ^ (s.take 8).length ≤ 16 ^ 8 := Nat.pow_le_pow_right (by norm_num) hlen
  have : parseHex8 s < 1 * 16 ^ (s.take 8).length := by
    simpa [parseHex8] using h
  calc parseHex8 s < 1 * 16 ^ (s.take 8).length := this
    _ ≤ 16 ^ 8 := by simpa using hpow
    _ ≤ 4294967296 := by norm_num

/-- Claim C7 (amended): matchesDifficulty holds exactly when the bitwise
or of the two leading 32-bit values equals the difficulty value AND the
difficulty value is below 2 to the 31 (the JavaScript bitwise or yields
a signed 32-bit value, so a difficulty with its top bit set never
compares equal); in particular the difficulty 00ff0000 rejects both the
hash 00123456, which the specification wrongly lists as accepted, and
the hash ff123456, while accepting 00ab0000. -/
theorem matchesDifficulty_iff_amended (hash difficulty : HexString) :
    (matchesDifficulty hash difficulty = true ↔
      (Nat.lor (parseHex8 hash) (parseHex8 difficulty) = parseHex8 difficulty ∧
       parseHex8 difficulty < 2147483648)) ∧
    matchesDifficulty c7Hash c7Difficulty = false ∧
    matchesDifficulty c7HashBad c7Difficulty = false ∧
    matchesDifficulty c7HashGood c7Difficulty = true := by
  refine ⟨?_, by decide, by decide, by decide⟩
  have hh : parseHex8 hash < 4294967296 := parseHex8_lt hash
  have hd : parseHex8 difficulty < 4294967296 := parseHex8_lt difficulty
  have h32 : (4294967296 : Nat) = 2 ^ 32 := by norm_num
  have hlor : Nat.lor (parseHex8 hash) (parseHex8 difficulty) < 4294967296 := by
    rw [h32] at hh hd ⊢
    exact Nat.bitwise_lt hh hd
  simp only [matchesDifficulty, toInt32]
  rw [Nat.mod_eq_of_lt hlor]
  by_cases hcase : Nat.lor (parseHex8 hash) (parseHex8 difficulty) < 2147483648
  · rw [if_pos hcase]
    simp only [beq_iff_eq, Nat.cast_inj]
    constructor
    · intro heq
      exact ⟨heq, heq ▸ hcase⟩
    · intro h
      exact h.1
  · rw [if_neg hcase]
    simp only [beq_iff_eq]
    constructor
    · intro heq
      exfalso
      have h1 : ((Nat.lor (parseHex8 hash) (parseHex8 difficulty) : Nat) : Int) < 4294967296 := by
        exact_mod_cast hlor
      have h2 : (0 : Int) ≤ ((parseHex8 difficulty : Nat) : Int) := Int.natCast_nonneg _
      omega
    · intro h
      exfalso
      rw [h.1] at hcase
      exact hcase h.2

/-- When no idle entry is strictly older than the running date the
eviction scan never updates its accumulator: entries in use are skipped
by the first conjunct and idle entries at or after the date by the
strict comparison. -/
theorem findOldestIdleAux_no_older_idle (pool : SdkPool) :
    ∀ d : Nat, (∀ q ∈ pool, q.2.isInUse = false → d ≤ q.2.lastUsed) →
      findOldestIdleAux pool none d = (none, d) := by
  induction pool with
  | nil => intro d _; rfl
  | cons hd tl ih =>
    intro d hall
    obtain ⟨k, v⟩ := hd
    have hcond : ¬ (v.isInUse = false ∧ v.lastUsed < d) := by
      rintro ⟨hidle, hlt⟩
      exact absurd hlt (not_lt.mpr (hall (k, v) (List.mem_cons_self _ _) hidle))
    rw [findOldestIdleAux, if_neg hcond]
    exact ih d (fun q hq hidle => hall q (List.mem_cons_of_mem _ hq) hidle)

/-- The date kept by the eviction scan never grows, and ends up at or
below the last-used date of every idle entry it visited. -/
theorem findOldestIdleAux_date_le (pool : SdkPool) :
    ∀ (acc : Option String) (d : Nat),
      (findOldestIdleAux pool acc d).2 ≤ d ∧
      ∀ q ∈ pool, q.2.isInUse = false → (findOldestIdleAux pool acc d).2 ≤ q.2.lastUsed := by
  induction pool with
  | nil =>
    intro acc d
    exact ⟨le_refl d, by simp⟩
  | cons hd tl ih =>
    intro acc d
    obtain ⟨k, v⟩ := hd
    by_cases hcond : v.isInUse = false ∧ v.lastUsed < d
    · rw [findOldestIdleAux, if_pos hcond]
      obtain ⟨h1, h2⟩ := ih (some k) v.lastUsed
      refine ⟨le_trans h1 (le_of_lt hcond.2), ?_⟩
      intro q hq hidle
      rcases List.mem_cons.mp hq with heq | hmem
      · rw [heq]
        exact h1
      · exact h2 q hmem hidle
    · rw [findOldestIdleAux, if_neg hcond]
      obtain ⟨h1, h2⟩ := ih acc d
      refine ⟨h1, ?_⟩
      intro q hq hidle
      rcases List.mem_cons.mp hq with heq | hmem
      · have hnotlt : ¬ v.lastUsed < d := by
          intro hlt
          rw [heq] at hidle
          exact hcond ⟨hidle, hlt⟩
        rw [heq]
        exact le_trans h1 (not_lt.mp hnotlt)
      · exact h2 q hmem hidle

/-- The eviction scan either leaves its accumulator untouched or returns
the key and date of some idle entry of the pool. -/
theorem findOldestIdleAux_key_src (pool : SdkPool) :
    ∀ (acc : Option String) (d : Nat),
      ((findOldestIdleAux pool acc d).1 = acc ∧ (findOldestIdleAux pool acc d).2 = d) ∨
      (∃ k0 v0, (findOldestIdleAux pool acc d).1 = some k0 ∧ (k0, v0) ∈ pool ∧
        v0.isInUse = false ∧ v0.lastUsed = (findOldestIdleAux pool acc d).2) := by
  induction pool with
  | nil =>
    intro acc d
    exact Or.inl ⟨rfl, rfl⟩
  | cons hd tl ih =>
    intro acc d
    obtain ⟨k, v⟩ := hd
    by_cases hcond : v.isInUse = false ∧ v.lastUsed < d
    · rw [findOldestIdleAux, if_pos hcond]
      rcases ih (some k) v.lastUsed with ⟨h1, h2⟩ | ⟨k0, v0, h1, h2, h3, h4⟩
      · exact Or.inr ⟨k, v, by rw [h1], List.mem_cons_self _ _, hcond.1, by rw [h2]⟩
      · exact Or.inr ⟨k0, v0, h1, List.mem_cons_of_mem _ h2, h3, h4⟩
    · rw [findOldestIdleAux, if_neg hcond]
      rcases ih acc d with h | ⟨k0, v0, h1, h2, h3, h4⟩
      · exact Or.inl h
      · exact Or.inr ⟨k0, v0, h1, List.mem_cons_of_mem _ h2, h3, h4⟩

/-- Once the eviction scan holds a candidate key it always reports some
key. -/
theorem findOldestIdleAux_keeps_some (pool : SdkPool) :
    ∀ (k : String) (d : Nat), ∃ k1, (findOldestIdleAux pool (some k) d).1 = some k1 := by
  induction pool with
  | nil =>
    intro k d
    exact ⟨k, rfl⟩
  | cons hd tl ih =>
    intro k d
    obtain ⟨k2, v⟩ := hd
    by_cases hcond : v.isInUse = false ∧ v.lastUsed < d
    · rw [findOldestIdleAux, if_pos hcond]
      exact ih k2 v.lastUsed
    · rw [findOldestIdleAux, if_neg hcond]
      exact ih k d

/-- An idle entry strictly older than the running date forces the
eviction scan to report some key. -/
theorem findOldestIdleAux_finds (pool : SdkPool) :
    ∀ (acc : Option String) (d : Nat),
      (∃ q ∈ pool, q.2.isInUse = false ∧ q.2.lastUsed < d) →
      ∃ k1, (findOldestIdleAux pool acc d).1 = some k1 := by
  induction pool with
  | nil =>
    intro acc d hex
    obtain ⟨q, hq, _⟩ := hex
    exact absurd hq (List.not_mem_nil q)
  | cons hd tl ih =>
    intro acc d hex
    obtain ⟨k, v⟩ := hd
    by_cases hcond : v.isInUse = false ∧ v.lastUsed < d
    · rw [findOldestIdleAux, if_pos hcond]
      exact findOldestIdleAux_keeps_some tl k v.lastUsed
    · rw [findOldestIdleAux, if_neg hcond]
      obtain ⟨q, hq, hqi, hqd⟩ := hex
      rcases List.mem_cons.mp hq with heq | hmem
      · exfalso
        rw [heq] at hqi hqd
        exact hcond ⟨hqi, hqd⟩
      · exact ih acc d ⟨q, hmem, hqi, hqd⟩

/-- With duplicate-free keys, membership determines the lookup result. -/
theorem poolLookup_of_mem_nodup (pool : SdkPool) :
    ∀ (k : String) (v : SdkPoolItem), (pool.map Prod.fst).Nodup → (k, v) ∈ pool →
      poolLookup pool k = some v := by
  induction pool with
  | nil =>
    intro k v _ hm
    exact absurd hm (List.not_mem_nil _)
  | cons hd tl ih =>
    intro k v hnodup hm
    obtain ⟨k2, v2⟩ := hd
    rcases List.mem_cons.mp hm with heq | hmem
    · obtain ⟨hk, hv⟩ := Prod.mk.injEq .. ▸ heq
      rw [poolLookup, if_pos hk.symm, hv]
    · have hk2 : k2 ≠ k := by
        intro hkk
        have hin : k ∈ tl.map Prod.fst := List.mem_map_of_mem Prod.fst hmem
        rw [List.map_cons, List.nodup_cons] at hnodup
        exact hnodup.1 (hkk ▸ hin)
      rw [poolLookup, if_neg hk2]
      exact ih k v (by rw [List.map_cons, List.nodup_cons] at hnodup; exact hnodup.2) hmem

/-- For an absent key in a full pool, getSdk defers entirely to the
eviction attempt. -/
theorem getSdk_none_full (pool : SdkPool) (maxPoolSize now newSdk : Nat) (key : String)
    (hnew : poolLookup pool key = none) (hfull : maxPoolSize ≤ pool.length) :
    getSdk pool maxPoolSize now newSdk key =
      match removeOldestIdleSdk pool now with
      | some pool1 =>
        GetSdkResult.ok newSdk
          (pool1 ++ [(key, { sdk := newSdk, lastUsed := now, isInUse := true })])
      | none => GetSdkResult.capacityError := by
  unfold getSdk
  simp only [hnew]
  rw [if_pos hfull]

/-- Claim C8 counterexample: a pool at capacity holding one idle entry
whose lastUsed equals the current clock reading, as after a release and
a new acquire within the same millisecond. The eviction scan starts its
running date at new Date() and compares strictly, so this idle entry is
invisible to it and getSdk for a new key throws the capacity error even
though an idle entry exists, where the claim requires that entry to be
evicted and the acquire to fail only when every entry is in use. -/
theorem getSdk_capacity_error_despite_idle_entry :
    (∃ p ∈ c8BoundaryPool, p.2.isInUse = false) ∧
    getSdk c8BoundaryPool 1 10 9 "b:CARDANO" = GetSdkResult.capacityError :=
  ⟨⟨("a:CARDANO", { sdk := 1, lastUsed := 10, isInUse := false }),
    List.mem_cons_self _ _, rfl⟩, rfl⟩

/-- Claim C8 (amended): when the pool is at capacity and the requested
key is absent, getSdk evicts exactly one idle entry that is strictly
older than the current clock reading and whose last-used date is minimal
among all idle entries, appending the freshly created entry for the new
key; when no idle entry is strictly older than now — in particular when
every entry is in use, but also when idle entries are stamped at the
current millisecond — the acquire fails with the capacity error. -/
theorem getSdk_eviction_spec (pool : SdkPool) (maxPoolSize now newSdk : Nat) (key : String)
    (hnodup : (pool.map Prod.fst).Nodup)
    (hfull : maxPoolSize ≤ pool.length)
    (hnew : poolLookup pool key = none) :
    ((∀ q ∈ pool, q.2.isInUse = false → now ≤ q.2.lastUsed) →
      getSdk pool maxPoolSize now newSdk key = GetSdkResult.capacityError) ∧
    ((∃ p ∈ pool, p.2.isInUse = false ∧ p.2.lastUsed < now) →
      ∃ k0 v0, (k0, v0) ∈ pool ∧ poolLookup pool k0 = some v0 ∧ v0.isInUse = false ∧
        v0.lastUsed < now ∧
        (∀ q ∈ pool, q.2.isInUse = false → v0.lastUsed ≤ q.2.lastUsed) ∧
        getSdk pool maxPoolSize now newSdk key =
          GetSdkResult.ok newSdk
            (poolErase pool k0 ++ [(key, { sdk := newSdk, lastUsed := now, isInUse := true })])) := by
  constructor
  · intro hall
    have h1 : findOldestIdleAux pool none now = (none, now) :=
      findOldestIdleAux_no_older_idle pool now hall
    have hrem : removeOldestIdleSdk pool now = none := by
      unfold removeOldestIdleSdk
      rw [h1]
    rw [getSdk_none_full pool maxPoolSize now newSdk key hnew hfull, hrem]
  · rintro ⟨p, hp, hpidle, hpold⟩
    obtain ⟨k1, hk1⟩ :=
      findOldestIdleAux_finds pool none now ⟨p, hp, hpidle, hpold⟩
    rcases findOldestIdleAux_key_src pool none now with ⟨ha, _⟩ | ⟨k0, v0, h1, h2, h3, h4⟩
    · rw [ha] at hk1
      cases hk1
    · have hrem : removeOldestIdleSdk pool now = some (poolErase pool k0) := by
        unfold removeOldestIdleSdk
        rw [h1]
      have hmin : ∀ q ∈ pool, q.2.isInUse = false → v0.lastUsed ≤ q.2.lastUsed := by
        intro q hq hqidle
        have hle := (findOldestIdleAux_date_le pool none now).2 q hq hqidle
        rw [h4]
        exact hle
      refine ⟨k0, v0, h2, poolLookup_of_mem_nodup pool k0 v0 hnodup h2, h3, ?_, hmin, ?_⟩
      · exact lt_of_le_of_lt (hmin p hp hpidle) hpold
      · rw [getSdk_none_full pool maxPoolSize now newSdk key hnew hfull, hrem]

/-- Witness for the amended C8 theorem at a full three-entry pool whose
idle entry with key b:CARDANO has the oldest last-used date, all dates
lying strictly before the acquire. -/
theorem getSdk_eviction_witness :
    ((∀ q ∈ c8Pool, q.2.isInUse = false → 10 ≤ q.2.lastUsed) →
      getSdk c8Pool 3 10 9 "d:CARDANO" = GetSdkResult.capacityError) ∧
    ((∃ p ∈ c8Pool, p.2.isInUse = false ∧ p.2.lastUsed < 10) →
      ∃ k0 v0, (k0, v0) ∈ c8Pool ∧ poolLookup c8Pool k0 = some v0 ∧ v0.isInUse = false ∧
        v0.lastUsed < 10 ∧
        (∀ q ∈ c8Pool, q.2.isInUse = false → v0.lastUsed ≤ q.2.lastUsed) ∧
        getSdk c8Pool 3 10 9 "d:CARDANO" =
          GetSdkResult.ok 9
            (poolErase c8Pool k0 ++ [("d:CARDANO", { sdk := 9, lastUsed := 10, isInUse := true })])) :=
  getSdk_eviction_spec c8Pool 3 10 9 "d:CARDANO" (by decide) (by decide) (by decide)

/-- Witness for the amended C5 theorem at the concrete configuration
with genesis timestamp 1000 and now at the end time 7000. -/
theorem redemptionWindow_closed_interval_witness :
    (getRedemptionWindowTimes c5Config 7000).startTimeMs = c5Config.genesis_timestamp * 1000 ∧
    (getRedemptionWindowTimes c5Config 7000).endTimeMs = (c5Config.genesis_timestamp + 6000) * 1000 ∧
    (getRedemptionWindowTimes c5Config 7000).totalDurationSeconds = 6000 ∧
    ((getRedemptionWindowTimes c5Config 7000).isOpen = true ↔
      c5Config.genesis_timestamp ≤ 7000 ∧ 7000 ≤ c5Config.genesis_timestamp + 6000) ∧
    (isRedemptionWindowOpen c5Config 7000 = true ↔
      c5Config.genesis_timestamp ≤ 7000 ∧ 7000 ≤ c5Config.genesis_timestamp + 6000) :=
  redemptionWindow_closed_interval c5Config 7000 rfl rfl
